import Mathlib

set_option maxRecDepth 40000

/-!
Verification development for the ComfyUI video-generation API wrapper
(`run_api.py`).  The Python module is shallowly embedded: JSON values are an
inductive type, stateful HTTP/websocket interaction is modelled by explicit
oracles and an effect trace, Python exceptions are an `Except` layer, and
Python truthiness is made explicit.  Numeric JSON literals are modelled as
integers (no fractional literals); this is sufficient for every property
studied here, which only inspects strings, lists and objects.
-/

/-- JSON values, as produced by `json.load` / `json.loads`.  Objects are
insertion-ordered association lists, mirroring Python dicts. -/
inductive Json where
  | null : Json
  | bool (b : Bool) : Json
  | num (n : Int) : Json
  | str (s : String) : Json
  | arr (xs : List Json) : Json
  | obj (fields : List (String × Json)) : Json

/-- Python exceptions that the embedded code can raise. -/
inductive Exc where
  | typeError : Exc
  | keyError (k : String) : Exc
  | attributeError : Exc
  | valueError : Exc

/-- Rendering of an exception as `str(e)`, used for 500 responses. -/
def excMsg : Exc → String
  | Exc.typeError => "TypeError"
  | Exc.keyError k => "KeyError: " ++ k
  | Exc.attributeError => "AttributeError"
  | Exc.valueError => "ValueError"

/-! ### json.dumps -/

/-- Escaping of a single character inside a serialized JSON string. -/
def escChar (c : Char) : List Char :=
  if c = '"' then ['\\', '"']
  else if c = '\\' then ['\\', '\\']
  else if c = '\n' then ['\\', 'n']
  else if c = '\t' then ['\\', 't']
  else if c = '\r' then ['\\', 'r']
  else [c]

/-- Serialized form of a string body (no surrounding quotes). -/
def encodeChars (l : List Char) : List Char := l.flatMap escChar

/-- Serialized JSON string literal, quotes included. -/
def encodeStr (s : String) : List Char := '"' :: encodeChars s.data ++ ['"']

/-- Decimal digit character. -/
def digitChar (d : Nat) : Char := Char.ofNat (48 + d)

/-- Base-10 digits of `m`, least significant first, computed with fuel so that
the definition reduces inside the kernel. -/
def natDigitsRev (fuel m : Nat) : List Nat :=
  match fuel with
  | 0 => []
  | f + 1 => if m = 0 then [] else (m % 10) :: natDigitsRev f (m / 10)

/-- Decimal representation of a natural number, most significant digit first. -/
def natChars (m : Nat) : List Char :=
  if m = 0 then ['0'] else ((natDigitsRev m m).reverse).map digitChar

/-- Decimal representation of an integer. -/
def intChars (n : Int) : List Char :=
  if n < 0 then '-' :: natChars n.natAbs else natChars n.toNat

mutual

/-- Serializer for JSON values, modelling `json.dumps` (value-level:
separator and ASCII-escaping details of the Python encoder do not affect
the parsed value). -/
def emit : Json → List Char
  | Json.null => ['n', 'u', 'l', 'l']
  | Json.bool true => ['t', 'r', 'u', 'e']
  | Json.bool false => ['f', 'a', 'l', 's', 'e']
  | Json.num n => intChars n
  | Json.str s => encodeStr s
  | Json.arr [] => ['[', ']']
  | Json.arr (x :: xs) => '[' :: (emit x ++ emitRest xs ++ [']'])
  | Json.obj [] => ['{', '}']
  | Json.obj (f :: fs) => '{' :: (emitField f ++ emitFieldsRest fs ++ ['}'])

/-- Serializer for the tail of an array (each element preceded by a comma). -/
def emitRest : List Json → List Char
  | [] => []
  | x :: xs => ',' :: (emit x ++ emitRest xs)

/-- Serializer for one object field. -/
def emitField : String × Json → List Char
  | (k, v) => encodeStr k ++ ':' :: emit v

/-- Serializer for the tail of an object. -/
def emitFieldsRest : List (String × Json) → List Char
  | [] => []
  | f :: fs => ',' :: (emitField f ++ emitFieldsRest fs)

end

/-- `json.dumps` as a string. -/
def jsonDumps (v : Json) : String := String.mk (emit v)

mutual

/-- Fuel sufficient to parse the serialized form of a value. -/
def jfuel : Json → Nat
  | Json.arr xs => 1 + jfuelL xs
  | Json.obj fs => 1 + jfuelF fs
  | _ => 1

/-- Fuel for a list of array elements. -/
def jfuelL : List Json → Nat
  | [] => 0
  | x :: xs => 1 + jfuel x + jfuelL xs

/-- Fuel for a list of object fields. -/
def jfuelF : List (String × Json) → Nat
  | [] => 0
  | f :: fs => 1 + jfuel f.2 + jfuelF fs

end

/-! ### json.loads -/

/-- JSON whitespace. -/
def isWsChar (c : Char) : Bool := c = ' ' || c = '\n' || c = '\t' || c = '\r'

/-- Skip leading whitespace. -/
def skipWs : List Char → List Char
  | [] => []
  | c :: cs => if isWsChar c then skipWs cs else c :: cs

/-- Decoding of a backslash escape inside a string literal. -/
def unescape (c : Char) : Option Char :=
  if c = '"' then some '"'
  else if c = '\\' then some '\\'
  else if c = '/' then some '/'
  else if c = 'n' then some '\n'
  else if c = 't' then some '\t'
  else if c = 'r' then some '\r'
  else none

/-- Parse the body of a string literal up to the closing quote. -/
def parseStrBody : List Char → Option (List Char × List Char)
  | [] => none
  | c :: rest =>
    if c = '"' then some ([], rest)
    else if c = '\\' then
      match rest with
      | [] => none
      | e :: rest2 =>
        match unescape e with
        | some d => (parseStrBody rest2).map (fun p => (d :: p.1, p.2))
        | none => none
    else (parseStrBody rest).map (fun p => (c :: p.1, p.2))

/-- Decimal digit test (own definition, to keep proofs self-contained). -/
def isDigitCh (c : Char) : Bool := 48 ≤ c.toNat && c.toNat ≤ 57

/-- Read a maximal run of decimal digits. -/
def readDigits : List Char → List Nat × List Char
  | [] => ([], [])
  | c :: cs =>
    if isDigitCh c then
      let p := readDigits cs
      ((c.toNat - 48) :: p.1, p.2)
    else ([], c :: cs)

/-- Value of a digit list, most significant digit first. -/
def digitsVal (ds : List Nat) : Nat := ds.foldl (fun a d => 10 * a + d) 0

mutual

/-- Fueled recursive-descent JSON parser, modelling `json.loads`. -/
def parseVal : Nat → List Char → Option (Json × List Char)
  | 0, _ => none
  | fuel + 1, cs =>
    match skipWs cs with
    | [] => none
    | c :: rest =>
      if isDigitCh c then
        let p := readDigits (c :: rest)
        some (Json.num (Int.ofNat (digitsVal p.1)), p.2)
      else if c = '-' then
        match rest with
        | [] => none
        | d :: _ =>
          if isDigitCh d then
            let p := readDigits rest
            some (Json.num (-(Int.ofNat (digitsVal p.1))), p.2)
          else none
      else if c = '"' then
        (parseStrBody rest).map (fun p => (Json.str (String.mk p.1), p.2))
      else if c = '[' then
        match skipWs rest with
        | [] => none
        | d :: rest2 =>
          if d = ']' then some (Json.arr [], rest2)
          else (parseElems fuel (d :: rest2)).map (fun p => (Json.arr p.1, p.2))
      else if c = '{' then
        match skipWs rest with
        | [] => none
        | d :: rest2 =>
          if d = '}' then some (Json.obj [], rest2)
          else (parseFields fuel (d :: rest2)).map (fun p => (Json.obj p.1, p.2))
      else if c = 'n' then
        match rest with
        | 'u' :: 'l' :: 'l' :: r => some (Json.null, r)
        | _ => none
      else if c = 't' then
        match rest with
        | 'r' :: 'u' :: 'e' :: r => some (Json.bool true, r)
        | _ => none
      else if c = 'f' then
        match rest with
        | 'a' :: 'l' :: 's' :: 'e' :: r => some (Json.bool false, r)
        | _ => none
      else none

/-- Parse one or more comma-separated array elements and the closing bracket. -/
def parseElems : Nat → List Char → Option (List Json × List Char)
  | 0, _ => none
  | fuel + 1, cs =>
    match parseVal fuel cs with
    | none => none
    | some (v, rest) =>
      match skipWs rest with
      | [] => none
      | d :: rest2 =>
        if d = ',' then (parseElems fuel rest2).map (fun p => (v :: p.1, p.2))
        else if d = ']' then some ([v], rest2)
        else none

/-- Parse one or more object fields and the closing brace. -/
def parseFields : Nat → List Char → Option (List (String × Json) × List Char)
  | 0, _ => none
  | fuel + 1, cs =>
    match skipWs cs with
    | [] => none
    | q :: rest =>
      if q = '"' then
        match parseStrBody rest with
        | none => none
        | some (k, rest2) =>
          match skipWs rest2 with
          | [] => none
          | e :: rest3 =>
            if e = ':' then
              match parseVal fuel rest3 with
              | none => none
              | some (v, rest4) =>
                match skipWs rest4 with
                | [] => none
                | d :: rest5 =>
                  if d = ',' then
                    (parseFields fuel rest5).map (fun p => ((String.mk k, v) :: p.1, p.2))
                  else if d = '}' then some ([(String.mk k, v)], rest5)
                  else none
            else none
      else none

end

/-- `json.loads`: parse a complete string, rejecting trailing garbage.
`none` models a raised decoding error. -/
def jsonParse (s : String) : Option Json :=
  match parseVal (2 * s.data.length + 2) s.data with
  | some (v, rest) => if skipWs rest = [] then some v else none
  | none => none

/-- The per-request deep copy `json.loads(json.dumps(template))`
(run_api.py line 125). -/
def deepCopyViaJson (t : Json) : Except Exc Json :=
  match jsonParse (jsonDumps t) with
  | some v => Except.ok v
  | none => Except.error Exc.valueError

/-- The remaining input does not start with a decimal digit. -/
def headNotDig : List Char → Bool
  | [] => true
  | c :: _ => !isDigitCh c

/-- Digits of `m`, most significant first, as emitted by `natChars`. -/
def digitList (m : Nat) : List Nat := if m = 0 then [0] else (natDigitsRev m m).reverse

/-! ### Python dict / value primitives -/

/-- Lookup in an insertion-ordered dict (first binding wins; parsed dicts
have unique keys). -/
def lookupField : List (String × Json) → String → Option Json
  | [], _ => none
  | (k, v) :: rest, key => if k = key then some v else lookupField rest key

/-- Dict item assignment: update the existing binding in place, else append. -/
def updateField : List (String × Json) → String → Json → List (String × Json)
  | [], k, v => [(k, v)]
  | (k2, v2) :: rest, k, v =>
    if k2 = k then (k2, v) :: rest else (k2, v2) :: updateField rest k v

/-- List-prefix test on characters. -/
def leadsList : List Char → List Char → Bool
  | [], _ => true
  | _ :: _, [] => false
  | a :: as, b :: bs => a = b && leadsList as bs

/-- Substring test, modelling Python `needle in hay` on strings. -/
def hasSub (needle : List Char) : List Char → Bool
  | [] => needle.isEmpty
  | c :: t => leadsList needle (c :: t) || hasSub needle t

/-- Python `s.endswith(suffix)`. -/
def strEndsWith (s suffix : String) : Bool :=
  decide (suffix.data.length ≤ s.data.length) &&
    decide (s.data.drop (s.data.length - suffix.data.length) = suffix.data)

/-- Python truthiness of a JSON value. -/
def pyTruthy : Json → Bool
  | Json.null => false
  | Json.bool b => b
  | Json.num n => decide (n ≠ 0)
  | Json.str s => decide (s.data ≠ [])
  | Json.arr xs => !xs.isEmpty
  | Json.obj fs => !fs.isEmpty

/-- Python truthiness of an optional string: `None` and `""` are falsy. -/
def truthyOpt : Option String → Bool
  | none => false
  | some s => decide (s.data ≠ [])

/-- Python `==` between a JSON value and a string: true only for the equal
string (values of other types compare unequal without raising). -/
def isStrEq (v : Json) (s : String) : Bool :=
  match v with
  | Json.str t => decide (t = s)
  | _ => false

/-- As `isStrEq`, for a `.get` result that may be `None`. -/
def optIsStrEq (o : Option Json) (s : String) : Bool :=
  match o with
  | some v => isStrEq v s
  | none => false

/-- Python `key in container`: key membership for dicts, element equality
for lists, substring for strings; `TypeError` otherwise. -/
def pyContains (container : Json) (key : String) : Except Exc Bool :=
  match container with
  | Json.obj fs => Except.ok (fs.any (fun p => decide (p.1 = key)))
  | Json.arr xs => Except.ok (xs.any (fun v => isStrEq v key))
  | Json.str s => Except.ok (hasSub key.data s.data)
  | _ => Except.error Exc.typeError

/-- Python `container[key]` with a string key: dict lookup (KeyError when
absent), `TypeError` for any non-dict container. -/
def pyIndexStr (container : Json) (key : String) : Except Exc Json :=
  match container with
  | Json.obj fs =>
    match lookupField fs key with
    | some v => Except.ok v
    | none => Except.error (Exc.keyError key)
  | _ => Except.error Exc.typeError

/-- Python `d.get(key, default)`; `AttributeError` when `d` is not a dict. -/
def pyGet (v : Json) (key : String) (dflt : Json) : Except Exc Json :=
  match v with
  | Json.obj fs => Except.ok ((lookupField fs key).getD dflt)
  | _ => Except.error Exc.attributeError

/-- Python `d.get(key)` with no default. -/
def pyGetOpt (v : Json) (key : String) : Except Exc (Option Json) :=
  match v with
  | Json.obj fs => Except.ok (lookupField fs key)
  | _ => Except.error Exc.attributeError

/-- Python `d.get(key, default)` where the key is an arbitrary JSON value:
list/dict keys are unhashable (`TypeError`); other non-string keys miss. -/
def pyGetJsonKey (v : Json) (key : Json) (dflt : Json) : Except Exc Json :=
  match v with
  | Json.obj fs =>
    match key with
    | Json.str s => Except.ok ((lookupField fs s).getD dflt)
    | Json.arr _ => Except.error Exc.typeError
    | Json.obj _ => Except.error Exc.typeError
    | _ => Except.ok dflt
  | _ => Except.error Exc.attributeError

/-! ### The embedded module run_api.py -/

/-- Media-suffix test on one candidate entry
(`isinstance(path, str) and path.endswith(('.mp4', '.webm', '.avi', '.mov'))`,
run_api.py line 68). -/
def isMediaStr (v : Json) : Bool :=
  match v with
  | Json.str s =>
    strEndsWith s ".mp4" || strEndsWith s ".webm" || strEndsWith s ".avi" ||
      strEndsWith s ".mov"
  | _ => false

/-- First entry of the candidate list that is a string with a recognized
media suffix (the `for path in path_list` loop, run_api.py lines 67-69). -/
def firstMediaPath (l : List Json) : Option String :=
  match l.find? isMediaStr with
  | some (Json.str s) => some s
  | _ => none

/-- `parse_video_path_from_output` (run_api.py lines 57-72): the guard on the
`text` field, deserialization of its first entry, and the suffix scan.  A
raised exception inside the `try` block is caught and yields `None`; the
membership test and subscription on line 59 sit outside the `try`, so they
can raise. -/
def parse_video_path_from_output (outputs : Json) : Except Exc (Option String) :=
  match pyContains outputs "text" with
  | Except.error e => Except.error e
  | Except.ok b =>
    if ¬ b then Except.ok none
    else
      match pyIndexStr outputs "text" with
      | Except.error e => Except.error e
      | Except.ok tv =>
        match tv with
        | Json.arr items =>
          match items with
          | [] => Except.ok none
          | s0 :: _ =>
            match s0 with
            | Json.str s =>
              match jsonParse s with
              | none => Except.ok none
              | some pl =>
                match pl with
                | Json.arr (_ :: second :: _) =>
                  match second with
                  | Json.arr pathList => Except.ok (firstMediaPath pathList)
                  | _ => Except.ok none
                | _ => Except.ok none
            | _ => Except.ok none
        | _ => Except.ok none

/-- The title branch of the scan (run_api.py line 30):
`node_title and node_data.get("_meta", {}).get("title") == node_title`.
An empty title is falsy, so the branch is skipped without comparing. -/
def titleMatches (nt : Option String) (fs : List (String × Json)) : Except Exc Bool :=
  match nt with
  | none => Except.ok false
  | some t =>
    if t.data = [] then Except.ok false
    else
      match pyGetOpt ((lookupField fs "_meta").getD (Json.obj [])) "title" with
      | Except.error e => Except.error e
      | Except.ok ti => Except.ok (optIsStrEq ti t)

/-- The type branch of the scan (run_api.py line 32):
`node_type and node_data.get("class_type") == node_type`. -/
def typeMatches (nty : Option String) (fs : List (String × Json)) : Bool :=
  match nty with
  | none => false
  | some ty =>
    if ty.data = [] then false else optIsStrEq (lookupField fs "class_type") ty

/-- The scan loop of `find_node_id` over the items of the workflow dict
(run_api.py lines 28-33); non-dict node values are skipped. -/
def findGo (nt nty : Option String) : List (String × Json) → Except Exc (Option String)
  | [] => Except.ok none
  | (nid, nd) :: rest =>
    match nd with
    | Json.obj fs =>
      match titleMatches nt fs with
      | Except.error e => Except.error e
      | Except.ok true => Except.ok (some nid)
      | Except.ok false =>
        if typeMatches nty fs then Except.ok (some nid) else findGo nt nty rest
    | _ => findGo nt nty rest

/-- `find_node_id` (run_api.py lines 26-34). -/
def find_node_id (workflow : Json) (node_title node_type : Option String) :
    Except Exc (Option String) :=
  match workflow with
  | Json.obj fields => findGo node_title node_type fields
  | _ => Except.error Exc.attributeError

/-- A websocket frame as returned by `ws.recv()`. -/
inductive WsFrame where
  | text (s : String) : WsFrame
  | binary : WsFrame

/-- Outcome of the listening loop. -/
inductive ListenOutcome where
  | resolved (p : Option String) : ListenOutcome
  | timedOut : ListenOutcome
  | errored : ListenOutcome

/-- Processing of one parsed text frame (run_api.py lines 86-89): test
`type == 'executed'` and `data.node == target`; on a match return the
`output` payload.  `.get` off a non-dict raises, which the enclosing
`except` turns into the fallback. -/
def wsStep (msg : Json) (target : String) : Except Exc (Option Json) :=
  match pyGetOpt msg "type" with
  | Except.error e => Except.error e
  | Except.ok ty =>
    if optIsStrEq ty "executed" then
      match pyGet msg "data" (Json.obj []) with
      | Except.error e => Except.error e
      | Except.ok d =>
        match pyGetOpt d "node" with
        | Except.error e => Except.error e
        | Except.ok nodev =>
          if optIsStrEq nodev target then
            match pyGet msg "data" (Json.obj []) with
            | Except.error e => Except.error e
            | Except.ok d2 =>
              match pyGet d2 "output" (Json.obj []) with
              | Except.error e => Except.error e
              | Except.ok outp => Except.ok (some outp)
          else Except.ok none
    else Except.ok none

/-- The `while True: out = ws.recv()` loop with `ws.settimeout(300)`
(run_api.py lines 80-89).  Each stream entry carries the idle gap waited
before that frame arrives; a gap above the timeout raises
`WebSocketTimeoutException`.  The second component is the total elapsed
listening time.  Binary frames are skipped (`isinstance(out, str)`), a
frame that fails to parse or raises while being inspected aborts the loop
(`errored`), and a matching executed event resolves with the extractor's
result. -/
def listenLoop (target : String) (timeout : Nat) :
    List (Nat × WsFrame) → ListenOutcome × Nat
  | [] => (ListenOutcome.timedOut, timeout)
  | (gap, f) :: rest =>
    if timeout < gap then (ListenOutcome.timedOut, timeout)
    else
      match f with
      | WsFrame.binary =>
        let r := listenLoop target timeout rest
        (r.1, gap + r.2)
      | WsFrame.text s =>
        match jsonParse s with
        | none => (ListenOutcome.errored, gap)
        | some msg =>
          match wsStep msg target with
          | Except.error _ => (ListenOutcome.errored, gap)
          | Except.ok (some outp) =>
            match parse_video_path_from_output outp with
            | Except.ok p => (ListenOutcome.resolved p, gap)
            | Except.error _ => (ListenOutcome.errored, gap)
          | Except.ok none =>
            let r := listenLoop target timeout rest
            (r.1, gap + r.2)

/-- Process-wide globals of run_api.py (lines 19-21): the engine address,
the client id minted once at import time, and the loaded workflow template. -/
structure Globals where
  server_address : String
  client_id : String
  workflow_api_json : Json

/-- One incoming request's fields (the uploaded image itself only matters
through the upload oracle). -/
structure Request where
  prompt : String
  negative_prompt : String

/-- Oracles for the external collaborators: the upload endpoint, the
submission endpoint, the websocket, the history endpoint, and the RNG.
`queueResult` is the value returned by `queue_prompt` (already `None` on its
internally caught failure); `historyResult` is the value returned by
`get_history` (already `{}` on its internally caught failure). -/
structure Oracles where
  uploadResult : Except Exc String
  queueResult : Option Json
  wsConnectOk : Bool
  wsFrames : List (Nat × WsFrame)
  historyResult : Json
  randSeed : Nat

/-- Network effects, in program order. -/
inductive Effect where
  | uploadImage : Effect
  | queuePrompt (clientId : String) (graph : Json) : Effect
  | wsConnect (clientId : String) : Effect
  | historyFetch (promptId : Json) : Effect

/-- A `JSONResponse`. -/
structure Response where
  status : Nat
  body : Json

/-- Body of an error response. -/
def errJson (m : String) : Json := Json.obj [("error", Json.str m)]

/-- Body of the success response. -/
def okJson (p : String) : Json := Json.obj [("generated_video_path", Json.str p)]

/-- `random.randint(lo, hi)` (inclusive bounds), with the oracle's draw
reduced into the range. -/
def pyRandint (lo hi seed : Nat) : Nat := lo + seed % (hi + 1 - lo)

/-- The nested assignment `wf[nid][sub][fld] = v` (run_api.py lines 140-148):
subscription raises `KeyError`/`TypeError` as in Python; assignment into a
non-dict raises `TypeError`. -/
def pySetItem2 (wf : Json) (nid sub fld : String) (v : Json) : Except Exc Json :=
  match wf with
  | Json.obj wfs =>
    match lookupField wfs nid with
    | none => Except.error (Exc.keyError nid)
    | some node =>
      match node with
      | Json.obj nfs =>
        match lookupField nfs sub with
        | none => Except.error (Exc.keyError sub)
        | some inner =>
          match inner with
          | Json.obj ifs =>
            Except.ok (Json.obj (updateField wfs nid
              (Json.obj (updateField nfs sub
                (Json.obj (updateField ifs fld v))))))
          | _ => Except.error Exc.typeError
      | _ => Except.error Exc.typeError
  | _ => Except.error Exc.typeError

/-- The seed-randomization step (run_api.py lines 145-153): the node id is
tested for truthiness (`if k_sampler_node_id:`), and when truthy the seed
input is overwritten with `random.randint(0, 999999999999999)`; otherwise
only a warning is printed and the graph is left unchanged. -/
def maybeRandomizeSeed (wf : Json) (ksId : Option String) (rand : Nat) : Except Exc Json :=
  match ksId with
  | some k =>
    if k.data = [] then Except.ok wf
    else pySetItem2 wf k "inputs" "seed"
      (Json.num (Int.ofNat (pyRandint 0 999999999999999 rand)))
  | none => Except.ok wf

/-- `get_final_video_path` (run_api.py lines 74-101): connect the websocket,
listen with a 300-second idle timeout, and on timeout, transport error, or
connect failure fall back to one history pull.  A resolved listen returns
the extractor's result directly (even `None`), skipping the fallback. -/
def getFinalVideoPath (g : Globals) (orc : Oracles) (pid : Json) (target : String) :
    Except Exc (Option String) × List Effect :=
  match (if orc.wsConnectOk then
      match listenLoop target 300 orc.wsFrames with
      | (ListenOutcome.resolved p, _) => some p
      | _ => none
    else none) with
  | some p => (Except.ok p, [Effect.wsConnect g.client_id])
  | none =>
    match pyGetJsonKey orc.historyResult pid (Json.obj []) with
    | Except.error e =>
      (Except.error e, [Effect.wsConnect g.client_id, Effect.historyFetch pid])
    | Except.ok history =>
      if ¬ pyTruthy history then
        (Except.ok none, [Effect.wsConnect g.client_id, Effect.historyFetch pid])
      else
        match pyGet history "outputs" (Json.obj []) with
        | Except.error e =>
          (Except.error e, [Effect.wsConnect g.client_id, Effect.historyFetch pid])
        | Except.ok outs =>
          match pyContains outs target with
          | Except.error e =>
            (Except.error e, [Effect.wsConnect g.client_id, Effect.historyFetch pid])
          | Except.ok b =>
            if b then
              ((do
                let h1 ← pyIndexStr history "outputs"
                let h2 ← pyIndexStr h1 target
                parse_video_path_from_output h2),
               [Effect.wsConnect g.client_id, Effect.historyFetch pid])
            else
              (Except.ok none, [Effect.wsConnect g.client_id, Effect.historyFetch pid])

/-- The four slot titles paired with their lookup results, filtered to the
falsy ones (run_api.py line 135). -/
def missingTitles (ia pa na oa : Option String) : List String :=
  (([("load_image", ia), ("positive_prompt", pa), ("negative_prompt", na),
     ("output_paths", oa)].filter (fun p => ! truthyOpt p.2)).map Prod.fst)

/-- The submission and resolution tail of the endpoint (run_api.py
lines 156-167). -/
def submitAndResolve (g : Globals) (orc : Oracles) (wf4 : Json) (oid : String) :
    Except Exc Response × List Effect :=
  match orc.queueResult with
  | none =>
    (Except.ok ⟨500, errJson "Failed to queue prompt in ComfyUI."⟩,
     [Effect.queuePrompt g.client_id wf4])
  | some q =>
    if ¬ pyTruthy q then
      (Except.ok ⟨500, errJson "Failed to queue prompt in ComfyUI."⟩,
       [Effect.queuePrompt g.client_id wf4])
    else
      match pyContains q "prompt_id" with
      | Except.error e => (Except.error e, [Effect.queuePrompt g.client_id wf4])
      | Except.ok b =>
        if ¬ b then
          (Except.ok ⟨500, errJson "Failed to queue prompt in ComfyUI."⟩,
           [Effect.queuePrompt g.client_id wf4])
        else
          match pyIndexStr q "prompt_id" with
          | Except.error e => (Except.error e, [Effect.queuePrompt g.client_id wf4])
          | Except.ok pid =>
            match (getFinalVideoPath g orc pid oid).1 with
            | Except.error e =>
              (Except.error e,
               Effect.queuePrompt g.client_id wf4 :: (getFinalVideoPath g orc pid oid).2)
            | Except.ok vp =>
              match vp with
              | some p =>
                if p.data = [] then
                  (Except.ok ⟨500, errJson "Generation finished, but failed to extract video path. Run with --verbose for details."⟩,
                    Effect.queuePrompt g.client_id wf4 :: (getFinalVideoPath g orc pid oid).2)
                else
                  (Except.ok ⟨200, okJson p⟩,
                    Effect.queuePrompt g.client_id wf4 :: (getFinalVideoPath g orc pid oid).2)
              | none =>
                (Except.ok ⟨500, errJson "Generation finished, but failed to extract video path. Run with --verbose for details."⟩,
                  Effect.queuePrompt g.client_id wf4 :: (getFinalVideoPath g orc pid oid).2)

/-- The body of the `try` block of `generate_video` (run_api.py
lines 124-167), with the raised-exception channel explicit. -/
def genBody (g : Globals) (req : Request) (orc : Oracles) :
    Except Exc Response × List Effect :=
  match deepCopyViaJson g.workflow_api_json with
  | Except.error e => (Except.error e, [])
  | Except.ok wf =>
    match find_node_id wf (some "load_image") none with
    | Except.error e => (Except.error e, [])
    | Except.ok ia =>
      match find_node_id wf (some "positive_prompt") none with
      | Except.error e => (Except.error e, [])
      | Except.ok pa =>
        match find_node_id wf (some "negative_prompt") none with
        | Except.error e => (Except.error e, [])
        | Except.ok na =>
          match find_node_id wf (some "output_paths") none with
          | Except.error e => (Except.error e, [])
          | Except.ok oa =>
            match find_node_id wf none (some "KSampler") with
            | Except.error e => (Except.error e, [])
            | Except.ok ka =>
              if ¬ (truthyOpt ia && truthyOpt pa && truthyOpt na && truthyOpt oa) then
                (Except.ok ⟨404, errJson ("Could not find required nodes. Missing titles: " ++
                  String.intercalate ", " (missingTitles ia pa na oa))⟩, [])
              else
                match ia, pa, na, oa with
                | some iid, some ppid, some ngid, some oid =>
                  match orc.uploadResult with
                  | Except.error e => (Except.error e, [Effect.uploadImage])
                  | Except.ok fname =>
                    match pySetItem2 wf iid "inputs" "image" (Json.str fname) with
                    | Except.error e => (Except.error e, [Effect.uploadImage])
                    | Except.ok wf1 =>
                      match pySetItem2 wf1 ppid "inputs" "text" (Json.str req.prompt) with
                      | Except.error e => (Except.error e, [Effect.uploadImage])
                      | Except.ok wf2 =>
                        match pySetItem2 wf2 ngid "inputs" "text"
                            (Json.str req.negative_prompt) with
                        | Except.error e => (Except.error e, [Effect.uploadImage])
                        | Except.ok wf3 =>
                          match maybeRandomizeSeed wf3 ka orc.randSeed with
                          | Except.error e => (Except.error e, [Effect.uploadImage])
                          | Except.ok wf4 =>
                            ((submitAndResolve g orc wf4 oid).1,
                             Effect.uploadImage :: (submitAndResolve g orc wf4 oid).2)
                | _, _, _, _ =>
                  (Except.ok ⟨404, errJson ("Could not find required nodes. Missing titles: " ++
                    String.intercalate ", " (missingTitles ia pa na oa))⟩, [])

/-- The `/generate-video` endpoint `generate_video` (run_api.py
lines 118-172): the `try` body, with any raised exception converted by the
outer `except` to a 500 response carrying `str(e)`.  The returned triple is
(response, final globals, network-effect trace). -/
def runGenerateVideo (g : Globals) (req : Request) (orc : Oracles) :
    Response × Globals × List Effect :=
  match (genBody g req orc).1 with
  | Except.ok resp => (resp, g, (genBody g req orc).2)
  | Except.error e => (⟨500, errJson (excMsg e)⟩, g, (genBody g req orc).2)

/-- The client/session identifier carried by an effect, if any. -/
def effectClientId : Effect → Option String
  | Effect.queuePrompt c _ => some c
  | Effect.wsConnect c => some c
  | _ => none

/-- All client identifiers sent over the network during a run. -/
def usedClientIds (tr : List Effect) : List String := tr.filterMap effectClientId

/-- The graphs submitted to the engine during a run. -/
def queuedGraphs (tr : List Effect) : List Json :=
  tr.filterMap (fun e =>
    match e with
    | Effect.queuePrompt _ w => some w
    | _ => none)

/-- The seed input of node `nid` in workflow `w`. -/
def seedAt (w : Json) (nid : String) : Option Json :=
  match w with
  | Json.obj fs =>
    match lookupField fs nid with
    | some (Json.obj nfs) =>
      match lookupField nfs "inputs" with
      | some (Json.obj ifs) => lookupField ifs "seed"
      | _ => none
    | _ => none
  | _ => none

/-- Whether a node value has a well-formed `_meta` field (absent, or a dict),
so that the title lookup in the scan cannot raise. -/
def metaOk : Json → Bool
  | Json.obj fs =>
    (match lookupField fs "_meta" with
     | some (Json.obj _) => true
     | some _ => false
     | none => true)
  | _ => true

/-- All nodes of a graph have well-formed `_meta` fields. -/
def wfMetaB (fields : List (String × Json)) : Bool := fields.all (fun p => metaOk p.2)

/-- The declared title of a node value, as read by the scan
(`node_data.get("_meta", {}).get("title")`). -/
def nodeTitle : Json → Option Json
  | Json.obj fs =>
    (match (lookupField fs "_meta").getD (Json.obj []) with
     | Json.obj ms => lookupField ms "title"
     | _ => none)
  | _ => none

/-- Whether a node's declared title equals the requested title exactly. -/
def matchesTitle (t : String) (nd : Json) : Bool := optIsStrEq (nodeTitle nd) t

/-- A node value with its `_meta` field (hence its declared title) removed. -/
def stripMeta : Json → Json
  | Json.obj fs => Json.obj (fs.filter (fun p => !(p.1 == "_meta")))
  | x => x

/-! ### Concrete instances used by counterexamples and witnesses -/

/-- A template whose image slot is titled correctly but stored under the
empty-string node id. -/
def cexT0 : Json :=
  Json.obj [("", Json.obj [("_meta", Json.obj [("title", Json.str "load_image")])])]

/-- Globals loaded with `cexT0`. -/
def cexG0 : Globals := ⟨"127.0.0.1:8188", "cid-0", cexT0⟩

/-- A request with fixed prompts. -/
def reqA : Request := ⟨"a prompt", "bad stuff"⟩

/-- Oracles for a run that never reaches the network. -/
def cexOrc0 : Oracles := ⟨Except.ok "up.png", none, false, [], Json.obj [], 0⟩

/-- A complete template: the four required slots under ids 1-4. -/
def tmplT1 : Json := Json.obj [
  ("1", Json.obj [("_meta", Json.obj [("title", Json.str "load_image")]),
    ("class_type", Json.str "LoadImage"),
    ("inputs", Json.obj [("image", Json.str "old.png")])]),
  ("2", Json.obj [("_meta", Json.obj [("title", Json.str "positive_prompt")]),
    ("inputs", Json.obj [("text", Json.str "")])]),
  ("3", Json.obj [("_meta", Json.obj [("title", Json.str "negative_prompt")]),
    ("inputs", Json.obj [("text", Json.str "")])]),
  ("4", Json.obj [("_meta", Json.obj [("title", Json.str "output_paths")]),
    ("inputs", Json.obj [("text", Json.arr [])])])]

/-- Globals loaded with `tmplT1`. -/
def tmplG1 : Globals := ⟨"127.0.0.1:8188", "cid-1", tmplT1⟩

/-- Oracles whose history pull has no entry for the submitted job. -/
def orcNoEntry : Oracles :=
  ⟨Except.ok "up.png", some (Json.obj [("prompt_id", Json.str "p")]),
   false, [], Json.obj [], 7⟩

/-- Oracles whose history pull has an entry for the target node whose payload
does not deserialize. -/
def orcBadPayload : Oracles :=
  ⟨Except.ok "up.png", some (Json.obj [("prompt_id", Json.str "p")]),
   false, [],
   Json.obj [("p", Json.obj [("outputs",
     Json.obj [("4", Json.obj [("text", Json.arr [Json.str "notjson"])])])])], 7⟩

/-- A template carrying a KSampler node under the empty-string node id,
next to the four required slots. -/
def cexT2 : Json := Json.obj [
  ("", Json.obj [("class_type", Json.str "KSampler"),
    ("inputs", Json.obj [("seed", Json.num 1)])]),
  ("1", Json.obj [("_meta", Json.obj [("title", Json.str "load_image")]),
    ("inputs", Json.obj [("image", Json.str "old.png")])]),
  ("2", Json.obj [("_meta", Json.obj [("title", Json.str "positive_prompt")]),
    ("inputs", Json.obj [("text", Json.str "")])]),
  ("3", Json.obj [("_meta", Json.obj [("title", Json.str "negative_prompt")]),
    ("inputs", Json.obj [("text", Json.str "")])]),
  ("4", Json.obj [("_meta", Json.obj [("title", Json.str "output_paths")]),
    ("inputs", Json.obj [("text", Json.arr [])])])]

/-- Globals loaded with `cexT2`. -/
def cexG2 : Globals := ⟨"127.0.0.1:8188", "cid-2", cexT2⟩

/-- The payload used for Scenario-B style extraction. -/
def scenBFields : List (String × Json) :=
  [("text", Json.arr [Json.str "[\"ignored\", [\"/out/video.mp4\"]]"])]

/-- A graph whose title "" node is the unique match for the empty title. -/
def c9fields : List (String × Json) :=
  [("1", Json.obj [("_meta", Json.obj [("title", Json.str "")])])]

/-- A two-node graph with distinct titles. -/
def c9nodeA : String × Json :=
  ("1", Json.obj [("_meta", Json.obj [("title", Json.str "positive_prompt")])])

/-- Second node of the two-node graph. -/
def c9nodeB : String × Json :=
  ("2", Json.obj [("_meta", Json.obj [("title", Json.str "negative_prompt")])])

/-- A progress event frame. -/
def progressFrameS : String := "\x7b\"type\": \"progress\"\x7d"

/-- An executed event frame for node 9 whose payload carries a media path. -/
def executedFrameS : String :=
  "\x7b\"type\": \"executed\", \"data\": \x7b\"node\": \"9\", \"output\": \x7b\"text\": [\"[\\\"t\\\", [\\\"/out/video.mp4\\\"]]\"]\x7d\x7d\x7d"

/-- The parsed progress event. -/
def progressMsg : Json := Json.obj [("type", Json.str "progress")]

/-- A small graph with a KSampler node under id 5. -/
def ksWf5 : Json := Json.obj [
  ("5", Json.obj [("class_type", Json.str "KSampler"),
    ("inputs", Json.obj [("seed", Json.num 3)])])]

/-! ### Roundtrip: the parser inverts the serializer -/

theorem skipWs_cons_of (c : Char) (cs : List Char) (h : isWsChar c = false) :
    skipWs (c :: cs) = c :: cs := by
  simp [skipWs, h]

theorem digitChar_facts (d : Nat) (h : d < 10) :
    isDigitCh (digitChar d) = true ∧ (digitChar d).toNat - 48 = d ∧
    isWsChar (digitChar d) = false ∧ ¬(digitChar d = ']') := by
  interval_cases d <;> exact ⟨by decide, by decide, by decide, by decide⟩

theorem readDigits_map (ds : List Nat) (rest : List Char) (hds : ∀ d ∈ ds, d < 10)
    (hrest : headNotDig rest = true) :
    readDigits (ds.map digitChar ++ rest) = (ds, rest) := by
  induction ds with
  | nil =>
    simp only [List.map_nil, List.nil_append]
    cases rest with
    | nil => rfl
    | cons c t =>
      have hc : isDigitCh c = false := by
        simpa [headNotDig] using hrest
      rw [readDigits.eq_def]
      simp [hc]
  | cons d ds ih =>
    have hd : d < 10 := hds d (by simp)
    obtain ⟨h1, h2, _, _⟩ := digitChar_facts d hd
    rw [List.map_cons, List.cons_append, readDigits.eq_def]
    simp only [h1, if_true]
    rw [ih (fun x hx => hds x (by simp [hx]))]
    simp [h2]

theorem digitsVal_append_one (xs : List Nat) (d : Nat) :
    digitsVal (xs ++ [d]) = 10 * digitsVal xs + d := by
  simp [digitsVal, List.foldl_append]

theorem natDigitsRev_lt (fuel : Nat) : ∀ m d, d ∈ natDigitsRev fuel m → d < 10 := by
  induction fuel with
  | zero => intro m d hd; simp [natDigitsRev] at hd
  | succ f ih =>
    intro m d hd
    by_cases hm : m = 0
    · simp [natDigitsRev, hm] at hd
    · simp only [natDigitsRev, if_neg hm, List.mem_cons] at hd
      rcases hd with h | h
      · subst h; exact Nat.mod_lt _ (by norm_num)
      · exact ih (m / 10) d h

theorem digitsVal_natDigitsRev (fuel : Nat) : ∀ m, m ≤ fuel →
    digitsVal ((natDigitsRev fuel m).reverse) = m := by
  induction fuel with
  | zero =>
    intro m h
    have hm : m = 0 := by omega
    subst hm; rfl
  | succ f ih =>
    intro m h
    by_cases hm : m = 0
    · subst hm; rfl
    · simp only [natDigitsRev, if_neg hm, List.reverse_cons]
      rw [digitsVal_append_one, ih (m / 10) (by omega)]
      omega

theorem natChars_eq_map (m : Nat) : natChars m = (digitList m).map digitChar := by
  by_cases hm : m = 0
  · subst hm; rfl
  · simp [natChars, digitList, hm]

theorem digitList_lt (m : Nat) : ∀ d ∈ digitList m, d < 10 := by
  intro d hd
  by_cases hm : m = 0
  · simp [digitList, hm] at hd; omega
  · simp only [digitList, if_neg hm, List.mem_reverse] at hd
    exact natDigitsRev_lt m m d hd

theorem digitList_ne_nil (m : Nat) : digitList m ≠ [] := by
  by_cases hm : m = 0
  · simp [digitList, hm]
  · simp only [digitList, if_neg hm]
    intro hcon
    rw [List.reverse_eq_nil_iff] at hcon
    cases m with
    | zero => exact hm rfl
    | succ k => simp [natDigitsRev, hm] at hcon

theorem digitsVal_digitList (m : Nat) : digitsVal (digitList m) = m := by
  by_cases hm : m = 0
  · subst hm; rfl
  · simp only [digitList, if_neg hm]
    exact digitsVal_natDigitsRev m m le_rfl

theorem parseStrBody_quote (X : List Char) : parseStrBody ('"' :: X) = some ([], X) := by
  rw [parseStrBody.eq_def]; rfl

theorem parseStrBody_esc (e d : Char) (h : unescape e = some d) (X : List Char) :
    parseStrBody ('\\' :: e :: X) = (parseStrBody X).map (fun p => (d :: p.1, p.2)) := by
  rw [parseStrBody.eq_def]
  simp [h]

theorem parseStrBody_raw (c : Char) (h1 : ¬c = '"') (h2 : ¬c = '\\') (X : List Char) :
    parseStrBody (c :: X) = (parseStrBody X).map (fun p => (c :: p.1, p.2)) := by
  rw [parseStrBody.eq_def]
  simp [h1, h2]

theorem parseStrBody_encode (l : List Char) (rest : List Char) :
    parseStrBody (encodeChars l ++ '"' :: rest) = some (l, rest) := by
  induction l with
  | nil =>
    simp only [encodeChars, List.flatMap_nil, List.nil_append]
    exact parseStrBody_quote rest
  | cons c l ih =>
    have hstep : encodeChars (c :: l) = escChar c ++ encodeChars l := by
      simp [encodeChars]
    rw [hstep, List.append_assoc]
    by_cases h1 : c = '"'
    · subst h1
      rw [show escChar '"' = ['\\', '"'] from rfl, List.cons_append, List.cons_append,
        List.nil_append, parseStrBody_esc '"' '"' (by decide), ih]
      rfl
    · by_cases h2 : c = '\\'
      · subst h2
        rw [show escChar '\\' = ['\\', '\\'] from rfl, List.cons_append, List.cons_append,
          List.nil_append, parseStrBody_esc '\\' '\\' (by decide), ih]
        rfl
      · by_cases h3 : c = '\n'
        · subst h3
          rw [show escChar '\n' = ['\\', 'n'] from rfl, List.cons_append, List.cons_append,
            List.nil_append, parseStrBody_esc 'n' '\n' (by decide), ih]
          rfl
        · by_cases h4 : c = '\t'
          · subst h4
            rw [show escChar '\t' = ['\\', 't'] from rfl, List.cons_append, List.cons_append,
              List.nil_append, parseStrBody_esc 't' '\t' (by decide), ih]
            rfl
          · by_cases h5 : c = '\r'
            · subst h5
              rw [show escChar '\r' = ['\\', 'r'] from rfl, List.cons_append, List.cons_append,
                List.nil_append, parseStrBody_esc 'r' '\r' (by decide), ih]
              rfl
            · have he : escChar c = [c] := by simp [escChar, h1, h2, h3, h4, h5]
              rw [he, List.cons_append, List.nil_append,
                parseStrBody_raw c h1 h2, ih]
              rfl

theorem string_mk_data (s : String) : String.mk s.data = s := by
  cases s; rfl

theorem emitField_eq (p : String × Json) :
    emitField p = encodeStr p.1 ++ ':' :: emit p.2 := by
  obtain ⟨k, v⟩ := p; rfl

theorem natChars_ne_nil (m : Nat) : natChars m ≠ [] := by
  rw [natChars_eq_map]
  simp [digitList_ne_nil]

theorem emit_head (v : Json) :
    ∃ c cs, emit v = c :: cs ∧ isWsChar c = false ∧ ¬(c = ']') := by
  cases v with
  | null => exact ⟨'n', _, rfl, by decide, by decide⟩
  | bool b =>
    cases b with
    | false => exact ⟨'f', _, rfl, by decide, by decide⟩
    | true => exact ⟨'t', _, rfl, by decide, by decide⟩
  | num n =>
    by_cases hn : n < 0
    · refine ⟨'-', natChars n.natAbs, ?_, by decide, by decide⟩
      simp [emit, intChars, hn]
    · obtain ⟨d, ds, hdl⟩ := List.exists_cons_of_ne_nil (digitList_ne_nil n.toNat)
      have hd : d < 10 := digitList_lt _ d (by rw [hdl]; simp)
      obtain ⟨_, _, hws, hrb⟩ := digitChar_facts d hd
      refine ⟨digitChar d, ds.map digitChar, ?_, hws, hrb⟩
      simp [emit, intChars, hn, natChars_eq_map, hdl]
  | str s => exact ⟨'"', _, rfl, by decide, by decide⟩
  | arr xs =>
    cases xs with
    | nil => exact ⟨'[', _, rfl, by decide, by decide⟩
    | cons x xs => exact ⟨'[', _, rfl, by decide, by decide⟩
  | obj fs =>
    cases fs with
    | nil => exact ⟨'{', _, rfl, by decide, by decide⟩
    | cons f fs => exact ⟨'{', _, rfl, by decide, by decide⟩

theorem parseVal_digitHead (fuel : Nat) (c : Char) (X : List Char)
    (h : isDigitCh c = true) (hws : isWsChar c = false) :
    parseVal (fuel + 1) (c :: X) =
      some (Json.num (Int.ofNat (digitsVal (readDigits (c :: X)).1)),
        (readDigits (c :: X)).2) := by
  rw [parseVal.eq_def]
  simp [skipWs_cons_of _ _ hws, h]

theorem parseVal_minus (fuel : Nat) (d : Char) (X : List Char) (h : isDigitCh d = true) :
    parseVal (fuel + 1) ('-' :: d :: X) =
      some (Json.num (-(Int.ofNat (digitsVal (readDigits (d :: X)).1))),
        (readDigits (d :: X)).2) := by
  rw [parseVal.eq_def]
  simp [skipWs_cons_of _ _ (show isWsChar '-' = false by decide),
    show isDigitCh '-' = false from by decide, h]

theorem parseVal_quoteHead (fuel : Nat) (X : List Char) :
    parseVal (fuel + 1) ('"' :: X) =
      (parseStrBody X).map (fun p => (Json.str (String.mk p.1), p.2)) := by
  rw [parseVal.eq_def]; rfl

theorem parseVal_lbrack (fuel : Nat) (X : List Char) :
    parseVal (fuel + 1) ('[' :: X) =
      (match skipWs X with
       | [] => none
       | d :: rest2 =>
         if d = ']' then some (Json.arr [], rest2)
         else (parseElems fuel (d :: rest2)).map (fun p => (Json.arr p.1, p.2))) := by
  rw [parseVal.eq_def]; rfl

theorem parseVal_lbrace (fuel : Nat) (X : List Char) :
    parseVal (fuel + 1) ('{' :: X) =
      (match skipWs X with
       | [] => none
       | d :: rest2 =>
         if d = '}' then some (Json.obj [], rest2)
         else (parseFields fuel (d :: rest2)).map (fun p => (Json.obj p.1, p.2))) := by
  rw [parseVal.eq_def]; rfl

theorem parseVal_intChars (fuel : Nat) (n : Int) (rest : List Char)
    (hrest : headNotDig rest = true) :
    parseVal (fuel + 1) (intChars n ++ rest) = some (Json.num n, rest) := by
  by_cases hn : n < 0
  · obtain ⟨d, ds, hdl⟩ := List.exists_cons_of_ne_nil (digitList_ne_nil n.natAbs)
    have hd : d < 10 := digitList_lt _ d (by rw [hdl]; simp)
    obtain ⟨h1, _, hws, _⟩ := digitChar_facts d hd
    have e1 : intChars n ++ rest = '-' :: (digitChar d :: (ds.map digitChar ++ rest)) := by
      simp [intChars, hn, natChars_eq_map, hdl]
    have hrd := readDigits_map (d :: ds) rest (by rw [← hdl]; exact digitList_lt _) hrest
    simp only [List.map_cons, List.cons_append] at hrd
    rw [e1, parseVal_minus fuel _ _ h1, hrd]
    have hv : digitsVal (d :: ds) = n.natAbs := by rw [← hdl]; exact digitsVal_digitList _
    rw [hv]
    have : -(Int.ofNat n.natAbs) = n := by
      simp only [Int.ofNat_eq_coe]; omega
    rw [this]
  · obtain ⟨d, ds, hdl⟩ := List.exists_cons_of_ne_nil (digitList_ne_nil n.toNat)
    have hd : d < 10 := digitList_lt _ d (by rw [hdl]; simp)
    obtain ⟨h1, _, hws, _⟩ := digitChar_facts d hd
    have e1 : intChars n ++ rest = digitChar d :: (ds.map digitChar ++ rest) := by
      simp [intChars, hn, natChars_eq_map, hdl]
    have hrd := readDigits_map (d :: ds) rest (by rw [← hdl]; exact digitList_lt _) hrest
    simp only [List.map_cons, List.cons_append] at hrd
    rw [e1, parseVal_digitHead fuel _ _ h1 hws, hrd]
    have hv : digitsVal (d :: ds) = n.toNat := by rw [← hdl]; exact digitsVal_digitList _
    rw [hv]
    have : Int.ofNat n.toNat = n := by
      simp only [Int.ofNat_eq_coe]; omega
    rw [this]

theorem parse_emit (fuel : Nat) :
    (∀ v rest, jfuel v ≤ fuel → headNotDig rest = true →
      parseVal fuel (emit v ++ rest) = some (v, rest)) ∧
    (∀ x xs rest, jfuelL (x :: xs) ≤ fuel →
      parseElems fuel (emit x ++ (emitRest xs ++ (']' :: rest))) = some (x :: xs, rest)) ∧
    (∀ f fs rest, jfuelF (f :: fs) ≤ fuel →
      parseFields fuel (emitField f ++ (emitFieldsRest fs ++ ('}' :: rest))) =
        some (f :: fs, rest)) := by
  induction fuel with
  | zero =>
    refine ⟨?_, ?_, ?_⟩
    · intro v rest h _
      exfalso; cases v <;> simp [jfuel] at h
    · intro x xs rest h
      exfalso; simp [jfuelL] at h
    · intro f fs rest h
      exfalso; simp [jfuelF] at h
  | succ fuel ih =>
    obtain ⟨ihA, ihB, ihC⟩ := ih
    refine ⟨?_, ?_, ?_⟩
    · -- values
      intro v rest hf hrest
      cases v with
      | null => rfl
      | bool b => cases b <;> rfl
      | num n => exact parseVal_intChars fuel n rest hrest
      | str s =>
        have e1 : emit (Json.str s) ++ rest =
            '"' :: (encodeChars s.data ++ '"' :: rest) := by
          simp [emit, encodeStr]
        rw [e1, parseVal_quoteHead, parseStrBody_encode]
        simp [string_mk_data]
      | arr xs =>
        cases xs with
        | nil => rfl
        | cons x xs =>
          have hx : jfuelL (x :: xs) ≤ fuel := by
            simp only [jfuel] at hf; omega
          obtain ⟨c, cs, hc, hcw, hcrb⟩ := emit_head x
          have e1 : emit (Json.arr (x :: xs)) ++ rest =
              '[' :: (emit x ++ (emitRest xs ++ (']' :: rest))) := by
            simp [emit, List.append_assoc]
          have ihB' := ihB x xs rest hx
          rw [hc, List.cons_append] at ihB'
          rw [e1, parseVal_lbrack, hc, List.cons_append, skipWs_cons_of _ _ hcw]
          simp [hcrb, ihB']
      | obj fs =>
        cases fs with
        | nil => rfl
        | cons f fs =>
          have hx : jfuelF (f :: fs) ≤ fuel := by
            simp only [jfuel] at hf; omega
          have e1 : emit (Json.obj (f :: fs)) ++ rest =
              '{' :: (emitField f ++ (emitFieldsRest fs ++ ('}' :: rest))) := by
            simp [emit, List.append_assoc]
          have e2 : emitField f ++ (emitFieldsRest fs ++ ('}' :: rest)) =
              '"' :: (encodeChars f.1.data ++
                ('"' :: (':' :: (emit f.2 ++ (emitFieldsRest fs ++ ('}' :: rest)))))) := by
            simp [emitField_eq, List.append_assoc, encodeStr]
          have ihC' := ihC f fs rest hx
          rw [e2] at ihC'
          rw [e1, parseVal_lbrace, e2, skipWs_cons_of _ _ (by decide)]
          simp [ihC']
    · -- array elements
      intro x xs rest h
      have hx : jfuel x ≤ fuel := by simp only [jfuelL] at h; omega
      have hnd : headNotDig (emitRest xs ++ (']' :: rest)) = true := by
        cases xs with
        | nil => rfl
        | cons y ys => rfl
      have hA := ihA x (emitRest xs ++ (']' :: rest)) hx hnd
      rw [parseElems.eq_def]
      cases xs with
      | nil =>
        simp only [emitRest, List.nil_append] at hA
        simp [hA, emitRest, skipWs_cons_of, isWsChar]
      | cons y ys =>
        have hy : jfuelL (y :: ys) ≤ fuel := by simp only [jfuelL] at h ⊢; omega
        have ihB' := ihB y ys rest hy
        have e1 : emitRest (y :: ys) ++ (']' :: rest) =
            ',' :: (emit y ++ (emitRest ys ++ (']' :: rest))) := by
          simp [emitRest, List.append_assoc]
        rw [e1] at hA
        simp [hA, e1, ihB', skipWs_cons_of, isWsChar]
    · -- object fields
      intro f fs rest h
      have hx : jfuel f.2 ≤ fuel := by simp only [jfuelF] at h; omega
      have e2 : emitField f ++ (emitFieldsRest fs ++ ('}' :: rest)) =
          '"' :: (encodeChars f.1.data ++
            ('"' :: (':' :: (emit f.2 ++ (emitFieldsRest fs ++ ('}' :: rest)))))) := by
        simp [emitField_eq, List.append_assoc, encodeStr]
      have hnd : headNotDig (emitFieldsRest fs ++ ('}' :: rest)) = true := by
        cases fs with
        | nil => rfl
        | cons g gs => rfl
      have hA := ihA f.2 (emitFieldsRest fs ++ ('}' :: rest)) hx hnd
      rw [e2, parseFields.eq_def]
      cases fs with
      | nil =>
        simp only [emitFieldsRest, List.nil_append] at hA
        simp [parseStrBody_encode, hA, string_mk_data, emitFieldsRest,
          skipWs_cons_of, isWsChar]
      | cons g gs =>
        have hg : jfuelF (g :: gs) ≤ fuel := by simp only [jfuelF] at h ⊢; omega
        have ihC' := ihC g gs rest hg
        have e3 : emitFieldsRest (g :: gs) ++ ('}' :: rest) =
            ',' :: (emitField g ++ (emitFieldsRest gs ++ ('}' :: rest))) := by
          simp [emitFieldsRest, List.append_assoc]
        rw [e3] at hA
        simp [parseStrBody_encode, hA, e3, ihC', string_mk_data,
          skipWs_cons_of, isWsChar]

mutual

theorem jfuel_le_emit : ∀ v : Json, jfuel v ≤ 2 * (emit v).length
  | Json.null => by simp [jfuel, emit]
  | Json.bool b => by cases b <;> simp [jfuel, emit]
  | Json.num n => by
    have h1 : 1 ≤ (intChars n).length := by
      by_cases hn : n < 0
      · simp only [intChars, if_pos hn, List.length_cons]
        omega
      · have := natChars_ne_nil n.toNat
        simp only [intChars, if_neg hn]
        exact List.length_pos.mpr this
    simp only [jfuel, emit]
    omega
  | Json.str s => by
    simp only [jfuel, emit, encodeStr, List.length_cons, List.length_append]
    omega
  | Json.arr [] => by simp [jfuel, jfuelL, emit]
  | Json.arr (x :: xs) => by
    have h1 := jfuel_le_emit x
    have h2 := jfuelL_le_emitRest xs
    simp only [jfuel, jfuelL, emit, List.length_cons, List.length_append]
    omega
  | Json.obj [] => by simp [jfuel, jfuelF, emit]
  | Json.obj (f :: fs) => by
    have h1 := jfuel_le_emit f.2
    have h2 := jfuelF_le_emitFieldsRest fs
    have h3 : (emitField f).length = (encodeStr f.1).length + 1 + (emit f.2).length := by
      simp only [emitField_eq, List.length_append, List.length_cons]
      omega
    simp only [jfuel, jfuelF, emit, List.length_cons, List.length_append]
    omega

theorem jfuelL_le_emitRest : ∀ xs : List Json, jfuelL xs ≤ 2 * (emitRest xs).length
  | [] => by simp [jfuelL, emitRest]
  | x :: xs => by
    have h1 := jfuel_le_emit x
    have h2 := jfuelL_le_emitRest xs
    simp only [jfuelL, emitRest, List.length_cons, List.length_append]
    omega

theorem jfuelF_le_emitFieldsRest :
    ∀ fs : List (String × Json), jfuelF fs ≤ 2 * (emitFieldsRest fs).length
  | [] => by simp [jfuelF, emitFieldsRest]
  | f :: fs => by
    have h1 := jfuel_le_emit f.2
    have h2 := jfuelF_le_emitFieldsRest fs
    have h3 : (emitField f).length = (encodeStr f.1).length + 1 + (emit f.2).length := by
      simp only [emitField_eq, List.length_append, List.length_cons]
      omega
    simp only [jfuelF, emitFieldsRest, List.length_cons, List.length_append]
    omega

end

theorem jsonParse_dumps (v : Json) : jsonParse (jsonDumps v) = some v := by
  have hb := jfuel_le_emit v
  have hmain := (parse_emit (2 * (emit v).length + 2)).1 v []
    (by omega) (by rfl)
  rw [List.append_nil] at hmain
  simp only [jsonParse, jsonDumps]
  rw [hmain]
  simp [skipWs]

/-- The per-request deep copy is value-identical to the template. -/
theorem deepCopy_id (t : Json) : deepCopyViaJson t = Except.ok t := by
  simp [deepCopyViaJson, jsonParse_dumps]



/-! ### Support lemmas for the extractor -/

theorem any_key_iff_lookup (fs : List (String × Json)) (k : String) :
    fs.any (fun p => decide (p.1 = k)) = true ↔ ∃ v, lookupField fs k = some v := by
  induction fs with
  | nil => simp [lookupField]
  | cons p rest ih =>
    obtain ⟨k2, v2⟩ := p
    by_cases hk : k2 = k
    · subst hk
      simp [lookupField]
    · simp [lookupField, hk, ih]

/-- C4, corrected: the extractor is total on every dict input: it returns a
path or None and never raises. -/
theorem c4_total_on_dicts (fields : List (String × Json)) :
    ∃ r : Option String,
      parse_video_path_from_output (Json.obj fields) = Except.ok r := by
  cases hany : fields.any (fun p => decide (p.1 = "text")) with
  | false =>
    refine ⟨none, ?_⟩
    unfold parse_video_path_from_output
    simp [pyContains, hany]
  | true =>
    obtain ⟨v, hv⟩ := (any_key_iff_lookup fields "text").mp hany
    unfold parse_video_path_from_output
    simp only [pyContains, hany, pyIndexStr, hv]
    rw [if_neg (by simp)]
    rcases v with _ | b | n | s | items | fs2
    case arr =>
      rcases items with _ | ⟨s0, t⟩
      · exact ⟨none, rfl⟩
      · rcases s0 with _ | b0 | n0 | s0 | a0 | o0
        case str =>
          cases hjp : jsonParse s0 with
          | none => exact ⟨none, by simp [hjp]⟩
          | some pl =>
            rcases pl with _ | b1 | n1 | s1 | l1 | o1
            case arr =>
              rcases l1 with _ | ⟨x, tl⟩
              · exact ⟨none, by simp [hjp]⟩
              · cases tl with
                | nil => exact ⟨none, by simp [hjp]⟩
                | cons sec r2 =>
                  rcases sec with _ | b2 | n2 | s2 | pl2 | o2
                  case arr => exact ⟨firstMediaPath pl2, by simp [hjp]⟩
                  all_goals exact ⟨none, by simp [hjp]⟩
            all_goals exact ⟨none, by simp [hjp]⟩
        all_goals exact ⟨none, rfl⟩
    all_goals exact ⟨none, rfl⟩

/-- C4 counterexample: on the non-dict input "context" (a JSON string that
contains "text" as a substring), the extractor raises an uncaught TypeError
instead of returning an outcome. -/
theorem c4_counterexample :
    parse_video_path_from_output (Json.str "context") = Except.error Exc.typeError := rfl

/-- C5: for every payload dict whose text field is a non-empty list headed
by a string that deserializes to a sequence of length at least two whose
second element is a list, the extractor returns exactly the first entry of
that list that is a string with a recognized media suffix. -/
theorem c5_extract_first_media :
    ∀ (fields : List (String × Json)) (s : String) (tail : List Json)
      (x : Json) (l r2 : List Json),
    lookupField fields "text" = some (Json.arr (Json.str s :: tail)) →
    jsonParse s = some (Json.arr (x :: Json.arr l :: r2)) →
    parse_video_path_from_output (Json.obj fields) = Except.ok (firstMediaPath l) ∧
    (∀ p, firstMediaPath l = some p →
      Json.str p ∈ l ∧ isMediaStr (Json.str p) = true) := by
  intro fields s tail x l r2 hl hp
  have hany : fields.any (fun p => decide (p.1 = "text")) = true :=
    (any_key_iff_lookup fields "text").mpr ⟨_, hl⟩
  constructor
  · unfold parse_video_path_from_output
    simp only [pyContains, hany, pyIndexStr, hl]
    rw [if_neg (by simp)]
    simp [hp]
  · intro p hpm
    unfold firstMediaPath at hpm
    cases hf : l.find? isMediaStr with
    | none => rw [hf] at hpm; exact absurd hpm (by simp)
    | some w =>
      rw [hf] at hpm
      rcases w with _ | b | n | s2 | a2 | o2
      case str =>
        have hps : s2 = p := by simpa using hpm
        subst hps
        exact ⟨List.mem_of_find?_eq_some hf, List.find?_some hf⟩
      all_goals exact absurd hpm (by simp)

/-- C5 witness: on the Scenario-B payload the extractor returns
/out/video.mp4. -/
theorem c5_extract_witness :
    lookupField scenBFields "text" =
      some (Json.arr [Json.str "[\"ignored\", [\"/out/video.mp4\"]]"]) ∧
    jsonParse "[\"ignored\", [\"/out/video.mp4\"]]" =
      some (Json.arr [Json.str "ignored", Json.arr [Json.str "/out/video.mp4"]]) ∧
    parse_video_path_from_output (Json.obj scenBFields) =
      Except.ok (some "/out/video.mp4") := by
  refine ⟨rfl, rfl, ?_⟩
  have h := (c5_extract_first_media scenBFields "[\"ignored\", [\"/out/video.mp4\"]]"
    [] (Json.str "ignored") [Json.str "/out/video.mp4"] [] rfl rfl).1
  rw [h]
  rfl

/-- C10: the empty string is never found, neither as a title nor as a kind:
the truthiness guard skips the comparison entirely, even when a node's own
title or kind is the empty string. -/
theorem c10_empty_identifier (fields : List (String × Json)) :
    find_node_id (Json.obj fields) (some "") none = Except.ok none ∧
    find_node_id (Json.obj fields) none (some "") = Except.ok none := by
  constructor <;> simp only [find_node_id]
  · induction fields with
    | nil => rfl
    | cons p rest ih =>
      obtain ⟨nid, nd⟩ := p
      cases nd <;>
        simp [findGo, show ∀ fs, titleMatches (some "") fs = Except.ok false from fun _ => rfl,
          show ∀ fs, typeMatches none fs = false from fun _ => rfl, ih]
  · induction fields with
    | nil => rfl
    | cons p rest ih =>
      obtain ⟨nid, nd⟩ := p
      cases nd <;>
        simp [findGo, show ∀ fs, titleMatches none fs = Except.ok false from fun _ => rfl,
          show ∀ fs, typeMatches (some "") fs = false from fun _ => rfl, ih]

/-! ### Support lemmas for the node scan -/

theorem titleMatches_eq (t : String) (fs : List (String × Json))
    (ht : ¬ t.data = []) (hm : metaOk (Json.obj fs) = true) :
    titleMatches (some t) fs = Except.ok (matchesTitle t (Json.obj fs)) := by
  simp only [titleMatches, if_neg ht]
  cases hmf : lookupField fs "_meta" with
  | none =>
    simp [pyGetOpt, hmf, matchesTitle, nodeTitle, lookupField]
  | some m =>
    cases m with
    | obj ms => simp [pyGetOpt, hmf, matchesTitle, nodeTitle]
    | null => simp [metaOk, hmf] at hm
    | bool b => simp [metaOk, hmf] at hm
    | num n => simp [metaOk, hmf] at hm
    | str s => simp [metaOk, hmf] at hm
    | arr xs => simp [metaOk, hmf] at hm

theorem findGo_title_eq_find (t : String) (ht : ¬ t.data = []) :
    ∀ l : List (String × Json), wfMetaB l = true →
    findGo (some t) none l =
      Except.ok ((l.find? (fun p => matchesTitle t p.2)).map Prod.fst) := by
  intro l
  induction l with
  | nil => intro _; rfl
  | cons p rest ih =>
    intro hwf
    obtain ⟨nid, nd⟩ := p
    have hwf1 : metaOk nd = true := by
      simp [wfMetaB, List.all_cons] at hwf
      exact hwf.1
    have hwf2 : wfMetaB rest = true := by
      simp [wfMetaB, List.all_cons] at hwf ⊢
      exact hwf.2
    cases nd with
    | obj fs =>
      rw [show findGo (some t) none ((nid, Json.obj fs) :: rest) =
        (match titleMatches (some t) fs with
         | Except.error e => Except.error e
         | Except.ok true => Except.ok (some nid)
         | Except.ok false =>
           if typeMatches none fs then Except.ok (some nid)
           else findGo (some t) none rest) from rfl]
      rw [titleMatches_eq t fs ht hwf1]
      cases hmt : matchesTitle t (Json.obj fs) with
      | true => simp [List.find?_cons, hmt]
      | false =>
        simp [List.find?_cons, hmt,
          show ∀ gs, typeMatches none gs = false from fun _ => rfl, ih hwf2]
    | null =>
      simp [findGo, List.find?_cons, matchesTitle, nodeTitle, optIsStrEq, ih hwf2]
    | bool b =>
      simp [findGo, List.find?_cons, matchesTitle, nodeTitle, optIsStrEq, ih hwf2]
    | num n =>
      simp [findGo, List.find?_cons, matchesTitle, nodeTitle, optIsStrEq, ih hwf2]
    | str s =>
      simp [findGo, List.find?_cons, matchesTitle, nodeTitle, optIsStrEq, ih hwf2]
    | arr xs =>
      simp [findGo, List.find?_cons, matchesTitle, nodeTitle, optIsStrEq, ih hwf2]

theorem find_unique_mem {α : Type} (p : α → Bool) :
    ∀ (l : List α) (a : α), a ∈ l → p a = true →
    (∀ x ∈ l, ∀ y ∈ l, p x = true → p y = true → x = y) →
    l.find? p = some a := by
  intro l
  induction l with
  | nil => intro a ha; simp at ha
  | cons b rest ih =>
    intro a ha hpa huniq
    cases hpb : p b with
    | true =>
      have hab : b = a :=
        huniq b (by simp) a ha hpb hpa
      rw [List.find?_cons, hpb, hab]
    | false =>
      have ha2 : a ∈ rest := by
        rcases List.mem_cons.mp ha with h | h
        · exfalso; subst h; rw [hpb] at hpa; exact Bool.false_ne_true hpa
        · exact h
      rw [List.find?_cons, hpb]
      exact ih a ha2 hpa
        (fun x hx y hy => huniq x (by simp [hx]) y (by simp [hy]))

theorem find_perm_unique {α : Type} (p : α → Bool) (l l' : List α)
    (hperm : l'.Perm l)
    (huniq : ∀ x ∈ l, ∀ y ∈ l, p x = true → p y = true → x = y) :
    l'.find? p = l.find? p := by
  cases hf : l.find? p with
  | none =>
    rw [List.find?_eq_none] at hf ⊢
    intro x hx
    exact hf x (hperm.mem_iff.mp hx)
  | some a =>
    exact find_unique_mem p l' a (hperm.mem_iff.mpr (List.mem_of_find?_eq_some hf))
      (List.find?_some hf)
      (fun x hx y hy => huniq x (hperm.mem_iff.mp hx) y (hperm.mem_iff.mp hy))

/-- C9, corrected: for graphs with well-formed meta fields and
pairwise-distinct (i.e. unique per title) display names, and a NON-EMPTY
requested title, find_node_id returns exactly the id of the first (hence
unique) node whose declared title equals the requested title, and the result
is invariant under permutation of the node mapping. -/
theorem c9_find_by_title_amended :
    ∀ (fields : List (String × Json)) (t : String),
    ¬ t.data = [] → wfMetaB fields = true →
    (∀ x ∈ fields, ∀ y ∈ fields,
      matchesTitle t x.2 = true → matchesTitle t y.2 = true → x = y) →
    (find_node_id (Json.obj fields) (some t) none =
      Except.ok ((fields.find? (fun p => matchesTitle t p.2)).map Prod.fst)) ∧
    (∀ nid nd, (nid, nd) ∈ fields → matchesTitle t nd = true →
      find_node_id (Json.obj fields) (some t) none = Except.ok (some nid)) ∧
    (∀ fields', fields'.Perm fields →
      find_node_id (Json.obj fields') (some t) none =
        find_node_id (Json.obj fields) (some t) none) := by
  intro fields t ht hwf huniq
  refine ⟨findGo_title_eq_find t ht fields hwf, ?_, ?_⟩
  · intro nid nd hmem hmt
    rw [show find_node_id (Json.obj fields) (some t) none =
      findGo (some t) none fields from rfl]
    rw [findGo_title_eq_find t ht fields hwf]
    rw [find_unique_mem (fun p => matchesTitle t p.2) fields (nid, nd) hmem hmt huniq]
    rfl
  · intro fields' hperm
    have hwf' : wfMetaB fields' = true := by
      simp only [wfMetaB, List.all_eq_true] at hwf ⊢
      intro p hp
      exact hwf p (hperm.mem_iff.mp hp)
    rw [show find_node_id (Json.obj fields) (some t) none =
      findGo (some t) none fields from rfl]
    rw [show find_node_id (Json.obj fields') (some t) none =
      findGo (some t) none fields' from rfl]
    rw [findGo_title_eq_find t ht fields hwf, findGo_title_eq_find t ht fields' hwf']
    rw [find_perm_unique (fun p => matchesTitle t p.2) fields fields' hperm huniq]

/-- C9 counterexample: a graph whose unique node's declared title is the
empty string and the requested title is that same empty string: the claim
says the node's id is returned; the code returns NotFound. -/
theorem c9_counterexample :
    find_node_id (Json.obj c9fields) (some "") none = Except.ok none ∧
    nodeTitle (Json.obj [("_meta", Json.obj [("title", Json.str "")])]) =
      some (Json.str "") ∧
    ("1", Json.obj [("_meta", Json.obj [("title", Json.str "")])]) ∈ c9fields :=
  ⟨rfl, rfl, by simp [c9fields]⟩

/-- C9 witness: on a concrete two-node graph with distinct titles the unique
titled node is found, in either enumeration order. -/
theorem c9_find_by_title_witness :
    find_node_id (Json.obj [c9nodeA, c9nodeB]) (some "positive_prompt") none =
      Except.ok (some "1") ∧
    find_node_id (Json.obj [c9nodeB, c9nodeA]) (some "positive_prompt") none =
      find_node_id (Json.obj [c9nodeA, c9nodeB]) (some "positive_prompt") none := by
  have huniq : ∀ x ∈ [c9nodeA, c9nodeB], ∀ y ∈ [c9nodeA, c9nodeB],
      matchesTitle "positive_prompt" x.2 = true →
      matchesTitle "positive_prompt" y.2 = true → x = y := by
    intro x hx y hy hpx hpy
    fin_cases hx <;> fin_cases hy <;> first
      | rfl
      | (exact absurd hpx (by decide))
      | (exact absurd hpy (by decide))
  have h := c9_find_by_title_amended [c9nodeA, c9nodeB] "positive_prompt"
    (by decide) (by decide) huniq
  refine ⟨?_, h.2.2 [c9nodeB, c9nodeA] (List.Perm.swap c9nodeA c9nodeB [])⟩
  exact h.2.1 "1" c9nodeA.2 (by simp [c9nodeA]) (by decide)

/-- C2 counterexample: with a 300-unit idle timeout, two frames arriving
after 200-unit gaps (a non-matching progress event, then the matching
executed event) still resolve, with a total push-phase wait of 400 units,
exceeding the single timeout ceiling: the discarded event restarted the
idle timer. -/
theorem c2_counterexample :
    listenLoop "9" 300
      [(200, WsFrame.text progressFrameS), (200, WsFrame.text executedFrameS)] =
      (ListenOutcome.resolved (some "/out/video.mp4"), 400) ∧ 300 < 400 :=
  ⟨rfl, by norm_num⟩

/-- C2, corrected: a non-matching event is discarded and listening
continues, but its receive restarts the idle timeout: the loop behaves on
the remaining stream exactly as if it had just started (the full ceiling is
available again), with the discarded event's gap added to the elapsed wait;
hence the total push-phase wait is not bounded by the single ceiling. -/
theorem c2_listen_amended :
    ∀ (target : String) (timeout gap : Nat) (s : String) (m : Json)
      (rest : List (Nat × WsFrame)),
    gap ≤ timeout → jsonParse s = some m → wsStep m target = Except.ok none →
    listenLoop target timeout ((gap, WsFrame.text s) :: rest) =
      ((listenLoop target timeout rest).1,
        gap + (listenLoop target timeout rest).2) := by
  intro target timeout gap s m rest hgap hs hstep
  simp only [listenLoop]
  rw [if_neg (by omega)]
  simp [hs, hstep]

/-- C2 witness: a concrete discarded progress event adds its gap and leaves
the loop on the remaining stream unchanged. -/
theorem c2_listen_witness :
    (5 : Nat) ≤ 300 ∧
    jsonParse progressFrameS = some progressMsg ∧
    wsStep progressMsg "9" = Except.ok none ∧
    listenLoop "9" 300 [(5, WsFrame.text progressFrameS)] =
      ((listenLoop "9" 300 []).1, 5 + (listenLoop "9" 300 []).2) :=
  ⟨by norm_num, rfl, rfl,
    c2_listen_amended "9" 300 5 progressFrameS progressMsg [] (by norm_num) rfl rfl⟩

/-- C7: every request operates on a deep copy of the loaded template: the
process globals (in particular the template mapping) are unchanged by any
run, and the serialize-parse deep copy reproduces the template exactly, so
each request's copy starts from the pristine template regardless of what
any other request wrote into its own copy. -/
theorem c7_template_preserved (g : Globals) (req : Request) (orc : Oracles) :
    (runGenerateVideo g req orc).2.1 = g ∧
    deepCopyViaJson g.workflow_api_json = Except.ok g.workflow_api_json := by
  constructor
  · unfold runGenerateVideo
    cases h : (genBody g req orc).1 <;> simp [h]
  · exact deepCopy_id g.workflow_api_json

/-- C1 counterexample: in a template whose image slot is titled
"load_image" but stored under the empty-string node id, the slot IS found
by title (the lookup returns that id), yet the failure message also names
"load_image" because the empty id is Python-falsy, so the message does not
name exactly the not-found slots. -/
theorem c1_counterexample :
    find_node_id cexT0 (some "load_image") none = Except.ok (some "") ∧
    runGenerateVideo cexG0 reqA cexOrc0 =
      (⟨404, errJson "Could not find required nodes. Missing titles: load_image, positive_prompt, negative_prompt, output_paths"⟩,
       cexG0, []) :=
  ⟨rfl, rfl⟩

/-- C1, corrected: whenever the slot lookups on the request's graph copy
complete without a fault and at least one of the four results is
Python-falsy (not found, or found under the empty-string id), the endpoint
returns the 404 IncompleteTemplate response before any network effect, and
its message names exactly the titles whose lookup result was falsy. -/
theorem c1_missing_amended :
    ∀ (g : Globals) (req : Request) (orc : Oracles) (wf : Json)
      (ia pa na oa ka : Option String),
    deepCopyViaJson g.workflow_api_json = Except.ok wf →
    find_node_id wf (some "load_image") none = Except.ok ia →
    find_node_id wf (some "positive_prompt") none = Except.ok pa →
    find_node_id wf (some "negative_prompt") none = Except.ok na →
    find_node_id wf (some "output_paths") none = Except.ok oa →
    find_node_id wf none (some "KSampler") = Except.ok ka →
    (truthyOpt ia && truthyOpt pa && truthyOpt na && truthyOpt oa) = false →
    runGenerateVideo g req orc =
      (⟨404, errJson ("Could not find required nodes. Missing titles: " ++
        String.intercalate ", " (missingTitles ia pa na oa))⟩, g, []) ∧
    (∀ s, s ∈ missingTitles ia pa na oa ↔
      ((s = "load_image" ∧ truthyOpt ia = false) ∨
       (s = "positive_prompt" ∧ truthyOpt pa = false) ∨
       (s = "negative_prompt" ∧ truthyOpt na = false) ∨
       (s = "output_paths" ∧ truthyOpt oa = false))) := by
  intro g req orc wf ia pa na oa ka hcopy hia hpa hna hoa hka hfalse
  constructor
  · unfold runGenerateVideo genBody
    simp only [hcopy, hia, hpa, hna, hoa, hka]
    rw [if_pos (by simp [hfalse])]
  · intro s
    cases h1 : truthyOpt ia <;> cases h2 : truthyOpt pa <;>
      cases h3 : truthyOpt na <;> cases h4 : truthyOpt oa <;>
        simp_all [missingTitles]

/-- C1 witness: on the empty-id template the amended theorem applies and
yields the 404 response with an empty effect trace. -/
theorem c1_missing_witness :
    deepCopyViaJson cexG0.workflow_api_json = Except.ok cexT0 ∧
    runGenerateVideo cexG0 reqA cexOrc0 =
      (⟨404, errJson ("Could not find required nodes. Missing titles: " ++
        String.intercalate ", "
          (missingTitles (some "") none none none))⟩, cexG0, []) ∧
    ("positive_prompt" ∈ missingTitles (some "") none none none) := by
  have h := c1_missing_amended cexG0 reqA cexOrc0 cexT0 (some "") none none none none
    (deepCopy_id cexT0) rfl rfl rfl rfl rfl rfl
  exact ⟨deepCopy_id cexT0, h.1,
    (h.2 "positive_prompt").mpr (Or.inr (Or.inl ⟨rfl, rfl⟩))⟩

/-- C3 counterexample: a pull response with no entry for the target node and
a pull response whose target-node payload is unparsable produce the
identical run outcome (the same generic 500 response, globals, and trace):
the code does not surface an ArtifactNotProduced kind distinct from
NoArtifactInPayload. -/
theorem c3_counterexample :
    runGenerateVideo tmplG1 reqA orcNoEntry = runGenerateVideo tmplG1 reqA orcBadPayload ∧
    (runGenerateVideo tmplG1 reqA orcNoEntry).1 =
      ⟨500, errJson "Generation finished, but failed to extract video path. Run with --verbose for details."⟩ :=
  ⟨rfl, rfl⟩

/-- C3, corrected: when the push phase falls through and the pull response
has no entry for the target output node, get_final_video_path returns None
(no typed failure), which generate_video then surfaces as the same generic
500 extraction-failure response used for an unparsable payload. -/
theorem c3_no_entry_amended :
    ∀ (g : Globals) (orc : Oracles) (pid : Json) (target : String)
      (h outs : Json),
    orc.wsConnectOk = false →
    pyGetJsonKey orc.historyResult pid (Json.obj []) = Except.ok h →
    (pyTruthy h = false ∨
      (pyGet h "outputs" (Json.obj []) = Except.ok outs ∧
       pyContains outs target = Except.ok false)) →
    getFinalVideoPath g orc pid target =
      (Except.ok none, [Effect.wsConnect g.client_id, Effect.historyFetch pid]) := by
  intro g orc pid target h outs hconn hget hcase
  unfold getFinalVideoPath
  rcases hcase with hfalse | ⟨houts, hcont⟩
  · simp [hconn, hget, hfalse]
  · by_cases hth : pyTruthy h = true
    · simp [hconn, hget, hth, houts, hcont]
    · simp [hconn, hget, hth]

/-- C3 witness: the concrete no-entry pull yields None from the fallback. -/
theorem c3_no_entry_witness :
    orcNoEntry.wsConnectOk = false ∧
    pyGetJsonKey orcNoEntry.historyResult (Json.str "p") (Json.obj []) =
      Except.ok (Json.obj []) ∧
    pyTruthy (Json.obj []) = false ∧
    getFinalVideoPath tmplG1 orcNoEntry (Json.str "p") "4" =
      (Except.ok none,
       [Effect.wsConnect "cid-1", Effect.historyFetch (Json.str "p")]) :=
  ⟨rfl, rfl, rfl,
    c3_no_entry_amended tmplG1 orcNoEntry (Json.str "p") "4" (Json.obj [])
      (Json.obj []) rfl rfl (Or.inl rfl)⟩

/-! ### Support lemmas for the shared client identifier -/

theorem getFinal_clientIds (g : Globals) (orc : Oracles) (pid : Json) (t : String) :
    ∀ c, c ∈ usedClientIds (getFinalVideoPath g orc pid t).2 → c = g.client_id := by
  intro c hc
  unfold getFinalVideoPath at hc
  repeat' split at hc
  all_goals simp [usedClientIds, effectClientId] at hc
  all_goals exact hc

theorem submitAndResolve_clientIds (g : Globals) (orc : Oracles) (wf : Json)
    (oid : String) :
    ∀ c, c ∈ usedClientIds (submitAndResolve g orc wf oid).2 → c = g.client_id := by
  intro c hc
  unfold submitAndResolve at hc
  repeat' split at hc
  all_goals simp [usedClientIds, effectClientId] at hc
  all_goals try exact hc
  all_goals
    (rcases hc with hc | hc
     exacts [hc, getFinal_clientIds g orc _ oid c
       (by simpa [usedClientIds, effectClientId, List.mem_filterMap] using hc)])

theorem genBody_clientIds (g : Globals) (req : Request) (orc : Oracles) :
    ∀ c, c ∈ usedClientIds (genBody g req orc).2 → c = g.client_id := by
  intro c hc
  unfold genBody at hc
  repeat' split at hc
  all_goals simp [usedClientIds, effectClientId] at hc
  all_goals exact submitAndResolve_clientIds g orc _ _ c (by simpa [usedClientIds] using hc)

theorem run_trace_eq (g : Globals) (req : Request) (orc : Oracles) :
    (runGenerateVideo g req orc).2.2 = (genBody g req orc).2 := by
  unfold runGenerateVideo
  cases h : (genBody g req orc).1 <;> simp [h]

/-- C6: for any two requests handled by the same process, every client
identifier sent over the network (in the job submission and in the push
channel connection) is the single process-wide value fixed in the globals
at startup, identical across the two requests and independent of the
request or oracles, hence not minted fresh per request. -/
theorem c6_client_id_shared :
    ∀ (g : Globals) (r1 : Request) (o1 : Oracles) (r2 : Request) (o2 : Oracles)
      (c1 c2 : String),
    c1 ∈ usedClientIds (runGenerateVideo g r1 o1).2.2 →
    c2 ∈ usedClientIds (runGenerateVideo g r2 o2).2.2 →
    c1 = g.client_id ∧ c2 = g.client_id ∧ c1 = c2 := by
  intro g r1 o1 r2 o2 c1 c2 h1 h2
  rw [run_trace_eq] at h1 h2
  have e1 := genBody_clientIds g r1 o1 c1 h1
  have e2 := genBody_clientIds g r2 o2 c2 h2
  exact ⟨e1, e2, by rw [e1, e2]⟩

/-- C6 witness: a concrete run uses the startup identifier on both the
submission and the push channel. -/
theorem c6_client_id_witness :
    "cid-1" ∈ usedClientIds (runGenerateVideo tmplG1 reqA orcNoEntry).2.2 ∧
    ("cid-1" : String) = tmplG1.client_id ∧ ("cid-1" : String) = "cid-1" := by
  have hmem : "cid-1" ∈ usedClientIds (runGenerateVideo tmplG1 reqA orcNoEntry).2.2 := by
    rw [show usedClientIds (runGenerateVideo tmplG1 reqA orcNoEntry).2.2 =
      ["cid-1", "cid-1"] from rfl]
    simp
  have h := c6_client_id_shared tmplG1 reqA orcNoEntry reqA orcNoEntry
    "cid-1" "cid-1" hmem hmem
  exact ⟨hmem, h.1, h.2.2⟩

/-! ### Support lemmas for the seed-randomization step -/

theorem lookup_update_self : ∀ (fs : List (String × Json)) (k : String) (v : Json),
    lookupField (updateField fs k v) k = some v := by
  intro fs k v
  induction fs with
  | nil => simp [updateField, lookupField]
  | cons p rest ih =>
    obtain ⟨k2, v2⟩ := p
    by_cases hk : k2 = k
    · simp [updateField, hk, lookupField]
    · simp [updateField, hk, lookupField, ih]

theorem setItem2_seedAt (wf : Json) (k : String) (v : Json) (wf2 : Json)
    (h : pySetItem2 wf k "inputs" "seed" v = Except.ok wf2) :
    seedAt wf2 k = some v := by
  unfold pySetItem2 at h
  repeat' split at h
  all_goals cases h
  simp [seedAt, lookup_update_self]

theorem lookup_filter_ne : ∀ (fs : List (String × Json)) (k ex : String), ¬ k = ex →
    lookupField (fs.filter (fun p => !(p.1 == ex))) k = lookupField fs k := by
  intro fs k ex hk
  induction fs with
  | nil => rfl
  | cons p rest ih =>
    obtain ⟨k2, v2⟩ := p
    by_cases h2 : k2 = ex
    · subst h2
      have hne : ¬ k2 = k := fun hcon => hk (hcon ▸ rfl)
      simp [lookupField, hne, ih]
    · by_cases h3 : k2 = k
      · subst h3; simp [lookupField, h2]
      · simp [lookupField, h2, h3, ih]

theorem findGo_type_strip (ty : String) :
    ∀ l : List (String × Json),
    findGo none (some ty) (l.map (fun p => (p.1, stripMeta p.2))) =
      findGo none (some ty) l := by
  intro l
  induction l with
  | nil => rfl
  | cons p rest ih =>
    obtain ⟨nid, nd⟩ := p
    rw [List.map_cons]
    cases nd with
    | obj fs =>
      rw [show stripMeta (Json.obj fs) =
        Json.obj (fs.filter (fun p => !(p.1 == "_meta"))) from rfl]
      by_cases hty : ty.data = []
      · simp [findGo, titleMatches, typeMatches, hty, ih]
      · have hcl : lookupField (fs.filter (fun p => !(p.1 == "_meta"))) "class_type" =
            lookupField fs "class_type" := lookup_filter_ne fs "class_type" "_meta" (by decide)
        simp [findGo, titleMatches, typeMatches, hty, hcl, ih]
    | null =>
      rw [show stripMeta Json.null = Json.null from rfl]; simp [findGo, ih]
    | bool b =>
      rw [show stripMeta (Json.bool b) = Json.bool b from rfl]; simp [findGo, ih]
    | num n =>
      rw [show stripMeta (Json.num n) = Json.num n from rfl]; simp [findGo, ih]
    | str s =>
      rw [show stripMeta (Json.str s) = Json.str s from rfl]; simp [findGo, ih]
    | arr xs =>
      rw [show stripMeta (Json.arr xs) = Json.arr xs from rfl]; simp [findGo, ih]

/-- C8 counterexample: a template carrying a KSampler node under the
empty-string node id: find-by-kind locates it (the node exists), yet the
submitted graph still carries the template's old seed 1 instead of the
freshly drawn value 7, because the empty id is Python-falsy and the
randomization block is skipped. -/
theorem c8_counterexample :
    find_node_id cexT2 none (some "KSampler") = Except.ok (some "") ∧
    ((queuedGraphs (runGenerateVideo cexG2 reqA orcNoEntry).2.2).head?.map
      (fun w => seedAt w "")) = some (some (Json.num 1)) ∧
    pyRandint 0 999999999999999 orcNoEntry.randSeed = 7 ∧
    (1 : Int) ≠ 7 :=
  ⟨rfl, rfl, rfl, by norm_num⟩

/-- C8, corrected: the randomness slot is located structurally by its kind
(class_type), never through titles (the scan result is invariant under
removing every node's `_meta` data); when the located id is truthy
(non-empty) the seed input of that node is overwritten with a fresh draw
lying in 0..999999999999999 inclusive; when no KSampler is found the graph
passes through unchanged and the request proceeds (a soft warning, not a
failure).  The unamended claim fails only for a KSampler stored under the
empty-string id, which exists but is skipped. -/
theorem c8_seed_amended :
    (∀ (fields : List (String × Json)) (ty : String),
      find_node_id (Json.obj (fields.map (fun p => (p.1, stripMeta p.2)))) none (some ty) =
        find_node_id (Json.obj fields) none (some ty)) ∧
    (∀ (wf : Json) (k : String) (rand : Nat) (wf2 : Json),
      ¬ k.data = [] →
      maybeRandomizeSeed wf (some k) rand = Except.ok wf2 →
      seedAt wf2 k = some (Json.num (Int.ofNat (pyRandint 0 999999999999999 rand))) ∧
      pyRandint 0 999999999999999 rand ≤ 999999999999999) ∧
    (∀ (wf : Json) (ksId : Option String) (rand : Nat),
      truthyOpt ksId = false → maybeRandomizeSeed wf ksId rand = Except.ok wf) := by
  refine ⟨?_, ?_, ?_⟩
  · intro fields ty
    simp [find_node_id, findGo_type_strip]
  · intro wf k rand wf2 hk hset
    simp only [maybeRandomizeSeed] at hset
    rw [if_neg hk] at hset
    refine ⟨setItem2_seedAt wf k _ wf2 hset, ?_⟩
    unfold pyRandint
    omega
  · intro wf ksId rand htr
    cases ksId with
    | none => rfl
    | some k =>
      have hk : k.data = [] := by
        simpa [truthyOpt] using htr
      simp only [maybeRandomizeSeed]
      rw [if_pos hk]

/-- C8 witness: on a concrete graph with a KSampler under id 5, the seed is
overwritten with the in-range draw 42; with a Python-falsy id the graph is
unchanged. -/
theorem c8_seed_witness :
    maybeRandomizeSeed ksWf5 (some "5") 42 =
      Except.ok (Json.obj [("5", Json.obj [("class_type", Json.str "KSampler"),
        ("inputs", Json.obj [("seed", Json.num 42)])])]) ∧
    seedAt (Json.obj [("5", Json.obj [("class_type", Json.str "KSampler"),
      ("inputs", Json.obj [("seed", Json.num 42)])])]) "5" = some (Json.num 42) ∧
    pyRandint 0 999999999999999 42 ≤ 999999999999999 ∧
    truthyOpt (some "") = false ∧
    maybeRandomizeSeed ksWf5 (some "") 42 = Except.ok ksWf5 := by
  have h2 := (c8_seed_amended.2.1 ksWf5 "5" 42
    (Json.obj [("5", Json.obj [("class_type", Json.str "KSampler"),
      ("inputs", Json.obj [("seed", Json.num 42)])])]) (by decide) rfl)
  have h3 := c8_seed_amended.2.2 ksWf5 (some "") 42 rfl
  exact ⟨rfl, h2.1, h2.2, rfl, h3⟩
